import Mathlib

/-!
Shallow embedding of the asynchronous out-of-band approval workflow of
`backend/src/services/async-auth/AsyncAuthService.ts`.

Time is modelled in milliseconds as `Nat` (the value of `Date.now()`).
The external authorization authority's behaviour at each network call is an
explicit parameter (`InitNet` for `initiateCIBARequest`, a stream of `PollNet`
values for the polling loop), so every operation is a pure function from the
store, the clock and the authority's answer to a result and an updated store.
`pollCIBAResult` additionally reports whether the authority was contacted over
the network on that call.
-/

/-- The status union on the TypeScript `CIBARequest.status` field. -/
inductive Status
  | pending
  | approved
  | denied
  | expired
  | timeout
deriving DecidableEq

/-- The return union of `waitForApproval`. -/
inductive WaitResult
  | approved
  | denied
  | timeout
  | expired
deriving DecidableEq

/-- The `details.type` union. -/
inductive OpType
  | transfer
  | payrollAccess
  | sensitiveOperation
deriving DecidableEq

/-- The `details` object of a `CIBARequest`. Monetary amounts are modelled as
integers. -/
structure Details where
  type : OpType
  description : String
  amount : Option Int
  fromAccount : Option String
  toAccount : Option String
  reason : Option String
deriving DecidableEq

/-- The `CIBARequest` record. `requestedAt`, `respondedAt` and `expiresAt` are
epoch milliseconds; `interval` is the recommended polling interval in seconds. -/
structure CIBARequest where
  authReqId : String
  userId : String
  userEmail : Option String
  operation : String
  details : Details
  status : Status
  requestedAt : Nat
  respondedAt : Option Nat
  expiresAt : Nat
  bindingMessage : Option String
  interval : Option Nat
deriving DecidableEq

/-- The in-memory `pendingRequests : Map<string, CIBARequest>`, as an
association list. -/
abbrev Store := List (String × CIBARequest)

def Store.empty : Store := []

/-- `Map.get` on the request registry. -/
def Store.get? : Store → String → Option CIBARequest
  | [], _ => none
  | (k, v) :: rest, key => if k = key then some v else Store.get? rest key

/-- `Map.set` on the request registry: replaces an existing binding, otherwise
appends. -/
def Store.set : Store → String → CIBARequest → Store
  | [], key, v => [(key, v)]
  | (k, w) :: rest, key, v =>
      if k = key then (key, v) :: rest else (k, w) :: Store.set rest key v

/-- JavaScript `x || d` for an optional number: `undefined` and `0` are falsy. -/
def jsOrNat : Option Nat → Nat → Nat
  | none, d => d
  | some v, d => if v = 0 then d else v

/-- JavaScript `x || d` for an optional integer: `undefined` and `0` are falsy. -/
def jsOrInt : Option Int → Int → Int
  | none, d => d
  | some v, d => if v = 0 then d else v

/-- Model of `String.startsWith`. -/
def strStartsWith (s pre : String) : Bool := List.isPrefixOf pre.toList s.toList

/-- The prefix marking locally synthesized (simulated) request ids. -/
def simulatedMark : String := "SIMULATED-"

/-- JavaScript regex `\s` (whitespace class), restricted to the code points the
regex engine treats as whitespace. -/
def isJsSpace (c : Char) : Bool :=
  c == ' ' || c == '\t' || c == '\n' || c == '\r' || c == '\x0b' || c == '\x0c' ||
  decide (c.toNat = 0x00A0) || decide (c.toNat = 0x1680) ||
  (decide (0x2000 ≤ c.toNat) && decide (c.toNat ≤ 0x200A)) ||
  decide (c.toNat = 0x2028) || decide (c.toNat = 0x2029) ||
  decide (c.toNat = 0x202F) || decide (c.toNat = 0x205F) ||
  decide (c.toNat = 0x3000) || decide (c.toNat = 0xFEFF)

/-- The character class kept by the sanitizer regex replacement
`text.replace([^\w\s+\-_.,:#], ...)`: ASCII alphanumerics, underscore,
whitespace, and `+ - . , : #`. -/
def cibaAllowed (c : Char) : Bool :=
  c.isAlphanum || c == '_' || isJsSpace c ||
  c == '+' || c == '-' || c == '.' || c == ',' || c == ':' || c == '#'

/-- The `sanitize` helper of `createBindingMessage`: drop every character
outside the allowed class. -/
def sanitize (text : String) : String := (text.toList.filter cibaAllowed).asString

/-- Decimal digit as a character. -/
def digitChar : Nat → Char
  | 0 => '0'
  | 1 => '1'
  | 2 => '2'
  | 3 => '3'
  | 4 => '4'
  | 5 => '5'
  | 6 => '6'
  | 7 => '7'
  | 8 => '8'
  | 9 => '9'
  | _ => '0'

/-- Decimal digits of a natural number, most significant first (fuelled to keep
the recursion structural). -/
def natDigitsAux : Nat → Nat → List Char
  | 0, _ => []
  | fuel + 1, n =>
      if n < 10 then [digitChar n] else natDigitsAux fuel (n / 10) ++ [digitChar (n % 10)]

def natDigits (n : Nat) : List Char := natDigitsAux (n + 1) n

/-- Insert a comma after every third character of the (reversed) digit list. -/
def group3Aux : Nat → List Char → List Char
  | 0, l => l
  | fuel + 1, l => if l.length ≤ 3 then l else l.take 3 ++ ',' :: group3Aux fuel (l.drop 3)

/-- en-US thousands grouping of a natural number: model of
`Number.prototype.toLocaleString` for the default locale of the reference
deployment. -/
def natLocale (n : Nat) : String :=
  ((group3Aux (natDigits n).length (natDigits n).reverse).reverse).asString

/-- `toLocaleString` for a (possibly negative) integral amount. -/
def intLocale (a : Int) : String :=
  if a < 0 then "-" ++ natLocale a.natAbs else natLocale a.toNat

def unknownAccount : String := "unknown"

/-- `createBindingMessage(operation, details)`. -/
def createBindingMessage (operation : String) (details : Details) : String :=
  match details.type with
  | OpType.transfer =>
    let amount : String :=
      match details.amount with
      | none => "0"
      | some a => intLocale a
    let toAccount :=
      sanitize (match details.toAccount with
        | none => unknownAccount
        | some t => if t = "" then unknownAccount else t)
    "Approve transfer of " ++ amount ++ " USD to " ++ toAccount
  | _ =>
    let sanitized := sanitize details.description
    "Approve " ++ sanitize operation ++ ": " ++ sanitized

def transferKind : String := "transfer"

def sensitiveKind : String := "sensitive_operation"

/-- `requiresApproval(operationType, details)`: transfers over 50,000 and every
`sensitive_operation` require approval. -/
def requiresApproval (operationType : String) (details : Details) : Bool :=
  if operationType = transferKind then decide (50000 < jsOrInt details.amount 0)
  else if operationType = sensitiveKind then true
  else false

/-- Outcome of the `bc-authorize` network call made by `initiateCIBARequest`:
either the authority answers (with `auth_req_id`, optional `expires_in` and
optional `interval`), or the call fails (network error, misconfiguration,
unreachable authority). -/
inductive InitNet
  | success (authReqId : String) (expiresIn : Option Nat) (interval : Option Nat)
  | failure
deriving DecidableEq

/-- `initiateCIBARequest(userId, userEmail, operation, details)` at clock `now`
with authority behaviour `net`. Returns the request handed to the caller and the
updated store. -/
def initiateCIBARequest (now : Nat) (net : InitNet) (userId userEmail operation : String)
    (details : Details) (store : Store) : CIBARequest × Store :=
  let bindingMessage := createBindingMessage operation details
  match net with
  | InitNet.success authReqId expiresIn interval =>
    let expiresIn := jsOrNat expiresIn 300
    let interval := jsOrNat interval 5
    let request : CIBARequest :=
      { authReqId := authReqId, userId := userId, userEmail := some userEmail,
        operation := operation, details := details, status := Status.pending,
        requestedAt := now, respondedAt := none, expiresAt := now + expiresIn * 1000,
        bindingMessage := some bindingMessage, interval := some interval }
    (request, store.set authReqId request)
  | InitNet.failure =>
    let authReqId := simulatedMark ++ toString now
    let request : CIBARequest :=
      { authReqId := authReqId, userId := userId, userEmail := some userEmail,
        operation := operation, details := details, status := Status.pending,
        requestedAt := now, respondedAt := none, expiresAt := now + 300000,
        bindingMessage := some bindingMessage, interval := none }
    (request, store.set authReqId request)

/-- The recognized `error` codes of the token-endpoint poll. -/
inductive ErrCode
  | authorizationPending
  | slowDown
  | accessDenied
  | expiredToken
  | other
deriving DecidableEq

/-- Outcome of the `oauth/token` network call made by one poll: HTTP success
(with or without an `access_token`) or an error response carrying a code. -/
inductive PollNet
  | success (hasToken : Bool)
  | failure (code : ErrCode)
deriving DecidableEq

/-- `pollCIBAResult(authReqId)` at clock `now` with authority behaviour `net`.
The third component of the result records whether the authority was contacted
over the network during this poll. -/
def pollCIBAResult (now : Nat) (net : PollNet) (store : Store) (authReqId : String) :
    Status × Store × Bool :=
  match store.get? authReqId with
  | none => (Status.expired, store, false)
  | some request =>
    if request.expiresAt < now then
      let r := { request with status := Status.expired }
      (Status.expired, store.set authReqId r, false)
    else if strStartsWith authReqId simulatedMark then
      ((if request.status = Status.pending then Status.pending else request.status),
        store, false)
    else
      match net with
      | PollNet.success hasToken =>
        if hasToken then
          let r := { request with status := Status.approved, respondedAt := some now }
          (Status.approved, store.set authReqId r, true)
        else
          (Status.pending, store, true)
      | PollNet.failure code =>
        match code with
        | ErrCode.authorizationPending => (Status.pending, store, true)
        | ErrCode.slowDown =>
          let r := { request with interval := some (jsOrNat request.interval 5 + 5) }
          (Status.pending, store.set authReqId r, true)
        | ErrCode.accessDenied =>
          let r := { request with status := Status.denied, respondedAt := some now }
          (Status.denied, store.set authReqId r, true)
        | ErrCode.expiredToken =>
          let r := { request with status := Status.expired }
          (Status.expired, store.set authReqId r, true)
        | ErrCode.other => (Status.pending, store, true)

/-- `approveRequest(authReqId)`: manual override, succeeds only on `pending`. -/
def approveRequest (store : Store) (authReqId : String) (now : Nat) : Bool × Store :=
  match store.get? authReqId with
  | none => (false, store)
  | some request =>
    if request.status = Status.pending then
      let r := { request with status := Status.approved, respondedAt := some now }
      (true, store.set authReqId r)
    else (false, store)

/-- `denyRequest(authReqId)`: manual override, succeeds only on `pending`. -/
def denyRequest (store : Store) (authReqId : String) (now : Nat) : Bool × Store :=
  match store.get? authReqId with
  | none => (false, store)
  | some request =>
    if request.status = Status.pending then
      let r := { request with status := Status.denied, respondedAt := some now }
      (true, store.set authReqId r)
    else (false, store)

/-- Mutable state of one `waitForApproval` run: the shared store, the clock, the
current sleep interval in milliseconds, and how many polls have been issued. -/
structure WaitState where
  store : Store
  now : Nat
  pollIntervalMs : Nat
  iter : Nat
deriving DecidableEq

/-- The interval-adoption step of the wait loop: if the stored request's
`interval` is truthy and, in milliseconds, larger than the current sleep
interval, adopt it. -/
def nextIntervalMs (store : Store) (authReqId : String) (pollIntervalMs : Nat) : Nat :=
  match store.get? authReqId with
  | some u =>
    match u.interval with
    | some i => if i ≠ 0 ∧ pollIntervalMs < i * 1000 then i * 1000 else pollIntervalMs
    | none => pollIntervalMs
  | none => pollIntervalMs

/-- One iteration of the wait loop's body up to the sleep: issue a poll,
adopt a grown interval, and sleep for the (possibly adopted) interval. Returns
the poll result together with the state the next iteration starts from. -/
def waitStep (net : Nat → PollNet) (authReqId : String) (s : WaitState) : Status × WaitState :=
  let p := pollCIBAResult s.now (net s.iter) s.store authReqId
  let m := nextIntervalMs p.2.1 authReqId s.pollIntervalMs
  (p.1, ⟨p.2.1, s.now + m, m, s.iter + 1⟩)

/-- The `while` loop of `waitForApproval`, fuelled. Each iteration checks the
elapsed wall-clock budget, polls once, returns on a terminal poll result,
otherwise adopts a grown interval and sleeps. `none` marks fuel exhaustion and
is proved unreachable for the fuel used by `waitForApproval`. The returned list
records the poll results observed by the loop, in order. -/
def waitLoop (net : Nat → PollNet) (authReqId : String) (startTime : Nat) (maxWaitMs : Int) :
    Nat → WaitState → Option (WaitResult × WaitState × List Status)
  | 0, _ => none
  | fuel + 1, s =>
    if ((s.now - startTime : Nat) : Int) < maxWaitMs then
      if (waitStep net authReqId s).1 = Status.approved then
        some (WaitResult.approved, { s with store := (waitStep net authReqId s).2.store },
          [(waitStep net authReqId s).1])
      else if (waitStep net authReqId s).1 = Status.denied then
        some (WaitResult.denied, { s with store := (waitStep net authReqId s).2.store },
          [(waitStep net authReqId s).1])
      else if (waitStep net authReqId s).1 = Status.expired then
        some (WaitResult.expired, { s with store := (waitStep net authReqId s).2.store },
          [(waitStep net authReqId s).1])
      else
        (waitLoop net authReqId startTime maxWaitMs fuel (waitStep net authReqId s).2).map
          (fun t => (t.1, t.2.1, (waitStep net authReqId s).1 :: t.2.2))
    else some (WaitResult.timeout, s, [])

/-- `waitForApproval(authReqId, maxWaitMs)` started at clock `startTime`, with
the authority's answer to the `i`-th poll given by `net i`. -/
def waitForApproval (net : Nat → PollNet) (store : Store) (authReqId : String)
    (startTime : Nat) (maxWaitMs : Int) : Option (WaitResult × WaitState × List Status) :=
  let request := store.get? authReqId
  let pollIntervalMs := jsOrNat (request.bind (fun r => r.interval)) 5 * 1000
  waitLoop net authReqId startTime maxWaitMs (maxWaitMs.toNat + 1)
    ⟨store, startTime, pollIntervalMs, 0⟩

/-! ## Concrete instances used by the per-claim witnesses and counterexamples -/

def payrollKind : String := "payroll_access"

def c1details : Details := ⟨OpType.transfer, "", some 75000, none, none, none⟩

def c1id : String := "SIMULATED-0"

/-- Store after a fallback initiation at clock 0. -/
def c1store0 : Store :=
  (initiateCIBARequest 0 InitNet.failure "user1" "user1@example.com" transferKind c1details
    Store.empty).2

/-- Store after a manual approval of the simulated request at clock 100. -/
def c1store1 : Store := (approveRequest c1store0 c1id 100).2

def c1wid : String := "SIMULATED-7"

def c1wreq : CIBARequest :=
  { authReqId := c1wid, userId := "user1", userEmail := none, operation := transferKind,
    details := c1details, status := Status.approved, requestedAt := 0,
    respondedAt := some 100, expiresAt := 500000, bindingMessage := none, interval := none }

def c1wstore : Store := Store.empty.set c1wid c1wreq

def c2id : String := "auth0-req-2"

def c2req : CIBARequest :=
  { authReqId := c2id, userId := "user2", userEmail := none, operation := transferKind,
    details := ⟨OpType.transfer, "", some 60000, none, none, none⟩, status := Status.pending,
    requestedAt := 0, respondedAt := none, expiresAt := 1000, bindingMessage := none,
    interval := some 5 }

def c2store : Store := Store.empty.set c2id c2req

def c3id : String := "auth0-req-3"

def c3req : CIBARequest :=
  { authReqId := c3id, userId := "user3", userEmail := none, operation := transferKind,
    details := ⟨OpType.transfer, "", some 60000, none, none, none⟩, status := Status.pending,
    requestedAt := 0, respondedAt := none, expiresAt := 900000, bindingMessage := none,
    interval := some 5 }

def c3store : Store := Store.empty.set c3id c3req

/-- An authority that is forever still waiting for the user. -/
def c3net : Nat → PollNet := fun _ => PollNet.failure ErrCode.authorizationPending

def c5details : Details := ⟨OpType.transfer, "", none, none, none, none⟩

def c6id : String := "SIMULATED-0"

def c6store0 : Store :=
  (initiateCIBARequest 0 InitNet.failure "user6" "user6@example.com" transferKind
    ⟨OpType.transfer, "", some 75000, none, none, none⟩ Store.empty).2

def c6wid : String := "auth0-req-6"

def c6wreq : CIBARequest :=
  { authReqId := c6wid, userId := "user6", userEmail := none, operation := transferKind,
    details := ⟨OpType.transfer, "", some 60000, none, none, none⟩, status := Status.pending,
    requestedAt := 0, respondedAt := none, expiresAt := 300000, bindingMessage := none,
    interval := some 5 }

def c6wstore : Store := Store.empty.set c6wid c6wreq

def c7id : String := "auth0-req-7"

def c7req : CIBARequest :=
  { authReqId := c7id, userId := "user7", userEmail := none, operation := transferKind,
    details := ⟨OpType.transfer, "", some 60000, none, none, none⟩, status := Status.pending,
    requestedAt := 0, respondedAt := none, expiresAt := 300000, bindingMessage := none,
    interval := some 5 }

def c7store : Store := Store.empty.set c7id c7req

def c8id : String := "never-created"

def c9details : Details := ⟨OpType.transfer, "", some 50000, none, some "ACC999", none⟩

def c10id : String := "auth0-req-10"

def c10req : CIBARequest :=
  { authReqId := c10id, userId := "user10", userEmail := none, operation := transferKind,
    details := ⟨OpType.transfer, "", some 60000, none, none, none⟩, status := Status.approved,
    requestedAt := 0, respondedAt := some 50, expiresAt := 300000, bindingMessage := none,
    interval := some 5 }

def c10store : Store := Store.empty.set c10id c10req

/-- An authority that would immediately grant a token on any poll. -/
def c10net : Nat → PollNet := fun _ => PollNet.success true

def c4details : Details := ⟨OpType.sensitiveOperation, "rotate signing keys", none, none, none, none⟩

def c9wdetails : Details := ⟨OpType.payrollAccess, "Payroll: $$ secret!", none, none, none, none⟩

/-! ## General lemmas about the embedded operations -/

theorem Store.get?_set_self (s : Store) (k : String) (v : CIBARequest) :
    (s.set k v).get? k = some v := by
  induction s with
  | nil => simp [Store.set, Store.get?]
  | cons hd tl ih =>
    obtain ⟨k0, v0⟩ := hd
    by_cases h : k0 = k
    · subst h
      simp [Store.set, Store.get?]
    · simp [Store.set, Store.get?, h, ih]

theorem jsOrNat_pos (o : Option Nat) : 1 ≤ jsOrNat o 5 := by
  cases o with
  | none => simp [jsOrNat]
  | some v =>
    simp only [jsOrNat]
    split <;> omega

theorem cibaAllowed_digitChar (d : Nat) : cibaAllowed (digitChar d) = true := by
  unfold digitChar
  split <;> decide

theorem natDigitsAux_allowed (fuel : Nat) :
    ∀ (n : Nat), ∀ c ∈ natDigitsAux fuel n, cibaAllowed c = true := by
  induction fuel with
  | zero =>
    intro n c hc
    simp [natDigitsAux] at hc
  | succ fuel ih =>
    intro n c hc
    unfold natDigitsAux at hc
    split at hc
    · simp only [List.mem_singleton] at hc
      subst hc
      exact cibaAllowed_digitChar n
    · rw [List.mem_append] at hc
      rcases hc with hc | hc
      · exact ih (n / 10) c hc
      · simp only [List.mem_singleton] at hc
        subst hc
        exact cibaAllowed_digitChar (n % 10)

theorem group3Aux_allowed (fuel : Nat) :
    ∀ (l : List Char), (∀ c ∈ l, cibaAllowed c = true) →
      ∀ c ∈ group3Aux fuel l, cibaAllowed c = true := by
  induction fuel with
  | zero =>
    intro l h c hc
    exact h c hc
  | succ fuel ih =>
    intro l h c hc
    unfold group3Aux at hc
    split at hc
    · exact h c hc
    · rw [List.mem_append] at hc
      rcases hc with hc | hc
      · exact h c (List.mem_of_mem_take hc)
      · rcases List.mem_cons.mp hc with hc | hc
        · subst hc
          decide
        · exact ih (l.drop 3) (fun c2 h2 => h c2 (List.mem_of_mem_drop h2)) c hc

theorem natLocale_allowed (n : Nat) : ∀ c ∈ (natLocale n).toList, cibaAllowed c = true := by
  intro c hc
  have hc2 : c ∈ (group3Aux (natDigits n).length (natDigits n).reverse).reverse := hc
  rw [List.mem_reverse] at hc2
  refine group3Aux_allowed (natDigits n).length (natDigits n).reverse ?_ c hc2
  intro c2 h2
  exact natDigitsAux_allowed (n + 1) n c2 (List.mem_reverse.mp h2)

theorem intLocale_allowed (a : Int) : ∀ c ∈ (intLocale a).toList, cibaAllowed c = true := by
  intro c hc
  unfold intLocale at hc
  split at hc
  · have h2 : c ∈ '-' :: (natLocale a.natAbs).toList := hc
    rcases List.mem_cons.mp h2 with h3 | h3
    · subst h3
      decide
    · exact natLocale_allowed a.natAbs c h3
  · exact natLocale_allowed a.toNat c hc

theorem sanitize_allowed (s : String) : ∀ c ∈ (sanitize s).toList, cibaAllowed c = true := by
  intro c hc
  exact List.of_mem_filter hc

theorem strToList_append (s t : String) : (s ++ t).toList = s.toList ++ t.toList := rfl

theorem strStartsWith_append (s t : String) : strStartsWith (s ++ t) s = true := by
  unfold strStartsWith
  rw [strToList_append]
  exact List.isPrefixOf_iff_prefix.mpr (List.prefix_append _ _)

/-! ## Claim theorems -/

/-- Claim C9: for every operation kind and every details input, the binding
message contains only letters, digits, whitespace and `+-_.,:#`; in particular
the transfer message for amount 50000 to ACC999 contains no `$` and renders the
amount thousands-separated. -/
theorem c9_binding_message_sanitized :
    ∀ (operation : String) (details : Details),
      (createBindingMessage operation details).toList.all cibaAllowed = true ∧
      createBindingMessage transferKind c9details = "Approve transfer of 50,000 USD to ACC999" ∧
      ((createBindingMessage transferKind c9details).toList.contains '$') = false := by
  intro operation details
  refine ⟨?_, by decide, by decide⟩
  rw [List.all_eq_true]
  intro c hc
  obtain ⟨ty, desc, amt, fa, ta, rs⟩ := details
  cases ty with
  | transfer =>
    simp only [createBindingMessage, strToList_append, List.mem_append] at hc
    rcases hc with (((h | h) | h) | h)
    · exact List.all_eq_true.mp (by decide) c h
    · cases amt with
      | none => exact List.all_eq_true.mp (by decide) c h
      | some a => exact intLocale_allowed a c h
    · exact List.all_eq_true.mp (by decide) c h
    · exact sanitize_allowed _ c h
  | payrollAccess =>
    simp only [createBindingMessage, strToList_append, List.mem_append] at hc
    rcases hc with (((h | h) | h) | h)
    · exact List.all_eq_true.mp (by decide) c h
    · exact sanitize_allowed _ c h
    · exact List.all_eq_true.mp (by decide) c h
    · exact sanitize_allowed _ c h
  | sensitiveOperation =>
    simp only [createBindingMessage, strToList_append, List.mem_append] at hc
    rcases hc with (((h | h) | h) | h)
    · exact List.all_eq_true.mp (by decide) c h
    · exact sanitize_allowed _ c h
    · exact List.all_eq_true.mp (by decide) c h
    · exact sanitize_allowed _ c h

/-- Claim C5: `requiresApproval` is pure and total; for `transfer` it holds iff
the amount exceeds 50,000 (false at the boundary), for `sensitive_operation` it
always holds, and for every other kind it is false. -/
theorem c5_requires_approval :
    ∀ (d : Details) (a : Int),
      requiresApproval transferKind { d with amount := some a } = decide (50000 < a) ∧
      requiresApproval transferKind { d with amount := none } = false ∧
      requiresApproval sensitiveKind d = true ∧
      (∀ k : String, k ≠ transferKind → k ≠ sensitiveKind → requiresApproval k d = false) := by
  intro d a
  refine ⟨?_, ?_, ?_, ?_⟩
  · rw [requiresApproval, if_pos rfl]
    simp only [jsOrInt]
    rcases eq_or_ne a 0 with h | h
    · subst h
      simp
    · simp [h]
  · rw [requiresApproval, if_pos rfl]
    simp [jsOrInt]
  · rw [requiresApproval, if_neg (by decide), if_pos rfl]
  · intro k h1 h2
    rw [requiresApproval, if_neg h1, if_neg h2]

/-- Witness for C5 at concrete amounts, including the 50,000 boundary. -/
theorem c5_witness :
    requiresApproval transferKind ⟨OpType.transfer, "", some 75000, none, none, none⟩ = true ∧
    requiresApproval transferKind ⟨OpType.transfer, "", some 50000, none, none, none⟩ = false ∧
    requiresApproval transferKind c5details = false ∧
    requiresApproval sensitiveKind c5details = true ∧
    requiresApproval payrollKind c5details = false := by
  refine ⟨?_, ?_, ?_, ?_, ?_⟩
  · exact ((c5_requires_approval c5details 75000).1).trans (by decide)
  · exact ((c5_requires_approval c5details 50000).1).trans (by decide)
  · exact (c5_requires_approval c5details 0).2.1
  · exact (c5_requires_approval c5details 0).2.2.1
  · exact (c5_requires_approval c5details 0).2.2.2 payrollKind (by decide) (by decide)

/-- Claim C2: a poll of a stored request past its deadline transitions it to
expired, persists it, and returns expired without contacting the authority,
whatever the authority would have answered. -/
theorem c2_expiry_before_network (store : Store) (authReqId : String) (req : CIBARequest)
    (now : Nat) (net : PollNet) (hget : store.get? authReqId = some req)
    (hexp : req.expiresAt < now) :
    pollCIBAResult now net store authReqId
      = (Status.expired, store.set authReqId { req with status := Status.expired }, false) := by
  simp only [pollCIBAResult, hget]
  rw [if_pos hexp]

/-- Witness for C2: a pending request with deadline 1000 polled at 2000 while
the authority would grant a token. -/
theorem c2_witness :
    pollCIBAResult 2000 (PollNet.success true) c2store c2id
      = (Status.expired, c2store.set c2id { c2req with status := Status.expired }, false) :=
  c2_expiry_before_network c2store c2id c2req 2000 (PollNet.success true) (by decide) (by decide)

/-- Claim C8: operations on an id the store has never seen: poll returns expired and the
manual overrides return false, none of them throwing or changing the store. -/
theorem c8_unknown_id (store : Store) (authReqId : String) (now : Nat) (net : PollNet)
    (hget : store.get? authReqId = none) :
    pollCIBAResult now net store authReqId = (Status.expired, store, false) ∧
    approveRequest store authReqId now = (false, store) ∧
    denyRequest store authReqId now = (false, store) := by
  refine ⟨?_, ?_, ?_⟩ <;> simp [pollCIBAResult, approveRequest, denyRequest, hget]

/-- Witness for C8 on the empty store. -/
theorem c8_witness :
    pollCIBAResult 5 (PollNet.success true) Store.empty c8id = (Status.expired, Store.empty, false) ∧
    approveRequest Store.empty c8id 5 = (false, Store.empty) ∧
    denyRequest Store.empty c8id 5 = (false, Store.empty) :=
  c8_unknown_id Store.empty c8id 5 (PollNet.success true) (by decide)

/-- Claim C4: when the network call fails, `initiateCIBARequest` still returns a
stored, pending request whose id carries the simulated prefix and whose deadline
is creation time plus 300 seconds. -/
theorem c4_fallback_request (now : Nat) (userId userEmail operation : String)
    (details : Details) (store : Store) :
    (initiateCIBARequest now InitNet.failure userId userEmail operation details store).1.authReqId
      = simulatedMark ++ toString now ∧
    strStartsWith
      (initiateCIBARequest now InitNet.failure userId userEmail operation details store).1.authReqId
      simulatedMark = true ∧
    (initiateCIBARequest now InitNet.failure userId userEmail operation details store).1.status
      = Status.pending ∧
    (initiateCIBARequest now InitNet.failure userId userEmail operation details store).1.requestedAt
      = now ∧
    (initiateCIBARequest now InitNet.failure userId userEmail operation details store).1.expiresAt
      = now + 300000 ∧
    (initiateCIBARequest now InitNet.failure userId userEmail operation details store).1.respondedAt
      = none ∧
    (initiateCIBARequest now InitNet.failure userId userEmail operation details store).2
      = store.set (simulatedMark ++ toString now)
          (initiateCIBARequest now InitNet.failure userId userEmail operation details store).1 := by
  refine ⟨rfl, ?_, rfl, rfl, rfl, rfl, rfl⟩
  exact strStartsWith_append simulatedMark (toString now)

/-- Claim C1 (amended): once a stored request's status is terminal, the manual
overrides leave the store unchanged and return false, a poll at or before the
deadline leaves a simulated request's status unchanged, and no poll ever sets a
status back to pending — but a poll after `expiresAt` overwrites the status
with expired regardless of its previous value. -/
theorem c1_terminal_status (store : Store) (authReqId : String) (req : CIBARequest) (now : Nat)
    (hget : store.get? authReqId = some req) (hterm : req.status ≠ Status.pending) :
    approveRequest store authReqId now = (false, store) ∧
    denyRequest store authReqId now = (false, store) ∧
    (req.expiresAt < now → ∀ net : PollNet,
      pollCIBAResult now net store authReqId
        = (Status.expired, store.set authReqId { req with status := Status.expired }, false)) ∧
    (¬ req.expiresAt < now → strStartsWith authReqId simulatedMark = true →
      ∀ net : PollNet, pollCIBAResult now net store authReqId = (req.status, store, false)) ∧
    (∀ net : PollNet,
      ((pollCIBAResult now net store authReqId).2.1.get? authReqId).map (fun r => r.status)
        ≠ some Status.pending) := by
  refine ⟨?_, ?_, ?_, ?_, ?_⟩
  · simp only [approveRequest, hget]
    rw [if_neg hterm]
  · simp only [denyRequest, hget]
    rw [if_neg hterm]
  · intro hexp net
    simp only [pollCIBAResult, hget]
    rw [if_pos hexp]
  · intro hexp hsim net
    simp only [pollCIBAResult, hget]
    rw [if_neg hexp, if_pos hsim, if_neg hterm]
  · intro net
    by_cases hexp : req.expiresAt < now
    · simp only [pollCIBAResult, hget]
      rw [if_pos hexp]
      simp [Store.get?_set_self]
    · by_cases hsim : strStartsWith authReqId simulatedMark = true
      · simp only [pollCIBAResult, hget]
        rw [if_neg hexp, if_pos hsim]
        simp only [Option.map]
        simp [hget, hterm]
      · cases net with
        | success hasToken =>
          cases hasToken with
          | true =>
            simp only [pollCIBAResult, hget]
            rw [if_neg hexp, if_neg hsim]
            simp [Store.get?_set_self]
          | false =>
            simp only [pollCIBAResult, hget]
            rw [if_neg hexp, if_neg hsim]
            simp [hget, hterm]
        | failure code =>
          cases code with
          | authorizationPending =>
            simp only [pollCIBAResult, hget]
            rw [if_neg hexp, if_neg hsim]
            simp [hget, hterm]
          | slowDown =>
            simp only [pollCIBAResult, hget]
            rw [if_neg hexp, if_neg hsim]
            simp [Store.get?_set_self, hterm]
          | accessDenied =>
            simp only [pollCIBAResult, hget]
            rw [if_neg hexp, if_neg hsim]
            simp [Store.get?_set_self]
          | expiredToken =>
            simp only [pollCIBAResult, hget]
            rw [if_neg hexp, if_neg hsim]
            simp [Store.get?_set_self]
          | other =>
            simp only [pollCIBAResult, hget]
            rw [if_neg hexp, if_neg hsim]
            simp [hget, hterm]

/-- Counterexample to claim C1 as stated: a simulated request initiated at
clock 0, manually approved at clock 100, then polled at clock 300001 (past its
300000 deadline) has its status overwritten from approved to expired by that
later poll. -/
theorem c1_counterexample :
    (approveRequest c1store0 c1id 100).1 = true ∧
    (c1store1.get? c1id).map (fun r => r.status) = some Status.approved ∧
    (pollCIBAResult 300001 (PollNet.failure ErrCode.other) c1store1 c1id).1 = Status.expired ∧
    ((pollCIBAResult 300001 (PollNet.failure ErrCode.other) c1store1 c1id).2.1.get? c1id).map
      (fun r => r.status) = some Status.expired := by
  refine ⟨by decide, by decide, by decide, by decide⟩

/-- Witness for C1 (amended) on an approved simulated request before its
deadline: the overrides refuse, the poll reports the stored status unchanged,
and no poll result is pending. -/
theorem c1_witness :
    approveRequest c1wstore c1wid 600 = (false, c1wstore) ∧
    denyRequest c1wstore c1wid 600 = (false, c1wstore) ∧
    pollCIBAResult 600 (PollNet.success true) c1wstore c1wid
      = (Status.approved, c1wstore, false) ∧
    decide (((pollCIBAResult 600 (PollNet.success true) c1wstore c1wid).2.1.get? c1wid).map
        (fun r => r.status) = some Status.pending) = false := by
  have h := c1_terminal_status c1wstore c1wid c1wreq 600 (by decide) (by decide)
  refine ⟨h.1, h.2.1, ?_, ?_⟩
  · exact (h.2.2.2.1 (by decide) (by decide) (PollNet.success true)).trans (by decide)
  · exact decide_eq_false (h.2.2.2.2 (PollNet.success true))

/-- Claim C6 (amended): `respondedAt` is recorded by transitions to approved and
denied — whether by the manual overrides or by a poll observing a token or an
explicit denial — and a poll returning pending leaves it unchanged; transitions
to expired (local deadline or the authority's expiry signal) do not touch it,
so an expired request that was never approved or denied keeps it unset. -/
theorem c6_responded_at (store : Store) (authReqId : String) (req : CIBARequest) (now : Nat)
    (hget : store.get? authReqId = some req) :
    (req.status = Status.pending →
      approveRequest store authReqId now
        = (true, store.set authReqId
            { req with status := Status.approved, respondedAt := some now }) ∧
      denyRequest store authReqId now
        = (true, store.set authReqId
            { req with status := Status.denied, respondedAt := some now })) ∧
    (req.expiresAt < now → ∀ net : PollNet,
      ((pollCIBAResult now net store authReqId).2.1.get? authReqId).map (fun r => r.respondedAt)
        = some req.respondedAt) ∧
    (¬ req.expiresAt < now → strStartsWith authReqId simulatedMark = false →
      pollCIBAResult now (PollNet.success true) store authReqId
        = (Status.approved, store.set authReqId
            { req with status := Status.approved, respondedAt := some now }, true) ∧
      pollCIBAResult now (PollNet.failure ErrCode.accessDenied) store authReqId
        = (Status.denied, store.set authReqId
            { req with status := Status.denied, respondedAt := some now }, true) ∧
      pollCIBAResult now (PollNet.failure ErrCode.expiredToken) store authReqId
        = (Status.expired, store.set authReqId { req with status := Status.expired }, true)) ∧
    (∀ net : PollNet, (pollCIBAResult now net store authReqId).1 = Status.pending →
      ((pollCIBAResult now net store authReqId).2.1.get? authReqId).map (fun r => r.respondedAt)
        = some req.respondedAt) := by
  refine ⟨?_, ?_, ?_, ?_⟩
  · intro hpend
    constructor
    · simp only [approveRequest, hget]
      rw [if_pos hpend]
    · simp only [denyRequest, hget]
      rw [if_pos hpend]
  · intro hexp net
    simp only [pollCIBAResult, hget]
    rw [if_pos hexp]
    simp [Store.get?_set_self]
  · intro hexp hsim
    refine ⟨?_, ?_, ?_⟩ <;>
      · simp only [pollCIBAResult, hget]
        rw [if_neg hexp]
        simp [hsim]
  · intro net
    by_cases hexp : req.expiresAt < now
    · simp only [pollCIBAResult, hget]
      rw [if_pos hexp]
      intro h
      cases h
    · by_cases hsim : strStartsWith authReqId simulatedMark = true
      · simp only [pollCIBAResult, hget]
        rw [if_neg hexp, if_pos hsim]
        intro _
        simp [hget]
      · cases net with
        | success hasToken =>
          cases hasToken with
          | true =>
            simp only [pollCIBAResult, hget]
            rw [if_neg hexp, if_neg hsim]
            intro h
            simp at h
          | false =>
            simp only [pollCIBAResult, hget]
            rw [if_neg hexp, if_neg hsim]
            intro _
            simp [hget]
        | failure code =>
          cases code with
          | authorizationPending =>
            simp only [pollCIBAResult, hget]
            rw [if_neg hexp, if_neg hsim]
            intro _
            simp [hget]
          | slowDown =>
            simp only [pollCIBAResult, hget]
            rw [if_neg hexp, if_neg hsim]
            intro _
            simp [Store.get?_set_self]
          | accessDenied =>
            simp only [pollCIBAResult, hget]
            rw [if_neg hexp, if_neg hsim]
            intro h
            simp at h
          | expiredToken =>
            simp only [pollCIBAResult, hget]
            rw [if_neg hexp, if_neg hsim]
            intro h
            simp at h
          | other =>
            simp only [pollCIBAResult, hget]
            rw [if_neg hexp, if_neg hsim]
            intro _
            simp [hget]

/-- Counterexample to claim C6 as stated: a simulated request initiated at
clock 0 and polled at clock 300001 transitions to the terminal status expired
with `respondedAt` still unset, so "`respondedAt` is set iff status is not
pending" fails. -/
theorem c6_counterexample :
    ((pollCIBAResult 300001 (PollNet.failure ErrCode.other) c6store0 c6id).2.1.get? c6id).map
      (fun r => (r.status, r.respondedAt)) = some (Status.expired, none) := by
  decide

/-- Witness for C6 (amended) on a pending authority-issued request: approval at
clock 100 records `respondedAt := 100`, a token-granting poll at clock 100
records it as well, and the local-expiry poll at clock 400000 leaves it unset. -/
theorem c6_witness :
    approveRequest c6wstore c6wid 100
      = (true, c6wstore.set c6wid
          { c6wreq with status := Status.approved, respondedAt := some 100 }) ∧
    pollCIBAResult 100 (PollNet.success true) c6wstore c6wid
      = (Status.approved, c6wstore.set c6wid
          { c6wreq with status := Status.approved, respondedAt := some 100 }, true) ∧
    ((pollCIBAResult 400000 (PollNet.success true) c6wstore c6wid).2.1.get? c6wid).map
      (fun r => r.respondedAt) = some none := by
  have h1 := c6_responded_at c6wstore c6wid c6wreq 100 (by decide)
  have h2 := c6_responded_at c6wstore c6wid c6wreq 400000 (by decide)
  refine ⟨(h1.1 (by decide)).1, (h1.2.2.1 (by decide) (by decide)).1, ?_⟩
  exact (h2.2.1 (by decide) (PollNet.success true)).trans (by decide)

/-- Claim C7: a slow_down poll on a live authority-issued request bumps the
stored interval by exactly 5 seconds, persists it, and returns pending with the
status untouched; no other poll outcome and neither manual override ever
changes the interval; and a wait-loop iteration that hits slow_down adopts the
grown interval, sleeping 5000 ms longer from the next iteration on. -/
theorem c7_slow_down (store : Store) (authReqId : String) (req : CIBARequest) (now : Nat)
    (hget : store.get? authReqId = some req) (hexp : ¬ req.expiresAt < now)
    (hsim : strStartsWith authReqId simulatedMark = false) :
    pollCIBAResult now (PollNet.failure ErrCode.slowDown) store authReqId
      = (Status.pending, store.set authReqId
          { req with interval := some (jsOrNat req.interval 5 + 5) }, true) ∧
    ({ req with interval := some (jsOrNat req.interval 5 + 5) } : CIBARequest).status
      = req.status ∧
    jsOrNat (some (jsOrNat req.interval 5 + 5)) 5 = jsOrNat req.interval 5 + 5 ∧
    (∀ (now2 : Nat) (net : PollNet), net ≠ PollNet.failure ErrCode.slowDown →
      ((pollCIBAResult now2 net store authReqId).2.1.get? authReqId).map (fun r => r.interval)
        = some req.interval) ∧
    (∀ now2 : Nat,
      ((approveRequest store authReqId now2).2.get? authReqId).map (fun r => r.interval)
        = some req.interval) ∧
    (∀ now2 : Nat,
      ((denyRequest store authReqId now2).2.get? authReqId).map (fun r => r.interval)
        = some req.interval) ∧
    (∀ (net0 : Nat → PollNet) (i : Nat), net0 i = PollNet.failure ErrCode.slowDown →
      waitStep net0 authReqId ⟨store, now, jsOrNat req.interval 5 * 1000, i⟩
        = (Status.pending,
            ⟨store.set authReqId { req with interval := some (jsOrNat req.interval 5 + 5) },
              now + (jsOrNat req.interval 5 * 1000 + 5000),
              jsOrNat req.interval 5 * 1000 + 5000, i + 1⟩)) := by
  have key : pollCIBAResult now (PollNet.failure ErrCode.slowDown) store authReqId
      = (Status.pending, store.set authReqId
          { req with interval := some (jsOrNat req.interval 5 + 5) }, true) := by
    simp only [pollCIBAResult, hget]
    rw [if_neg hexp]
    simp [hsim]
  have hnext : nextIntervalMs (store.set authReqId
        { req with interval := some (jsOrNat req.interval 5 + 5) }) authReqId
        (jsOrNat req.interval 5 * 1000) = jsOrNat req.interval 5 * 1000 + 5000 := by
    simp only [nextIntervalMs, Store.get?_set_self]
    split
    · omega
    · omega
  refine ⟨key, rfl, ?_, ?_, ?_, ?_, ?_⟩
  · simp [jsOrNat]
  · intro now2 net hne
    by_cases hexp2 : req.expiresAt < now2
    · simp only [pollCIBAResult, hget]
      rw [if_pos hexp2]
      simp [Store.get?_set_self]
    · cases net with
      | success hasToken =>
        cases hasToken with
        | true =>
          simp only [pollCIBAResult, hget]
          rw [if_neg hexp2]
          simp [hsim, Store.get?_set_self]
        | false =>
          simp only [pollCIBAResult, hget]
          rw [if_neg hexp2]
          simp [hsim, hget]
      | failure code =>
        cases code with
        | authorizationPending =>
          simp only [pollCIBAResult, hget]
          rw [if_neg hexp2]
          simp [hsim, hget]
        | slowDown => exact absurd rfl hne
        | accessDenied =>
          simp only [pollCIBAResult, hget]
          rw [if_neg hexp2]
          simp [hsim, Store.get?_set_self]
        | expiredToken =>
          simp only [pollCIBAResult, hget]
          rw [if_neg hexp2]
          simp [hsim, Store.get?_set_self]
        | other =>
          simp only [pollCIBAResult, hget]
          rw [if_neg hexp2]
          simp [hsim, hget]
  · intro now2
    by_cases hpend : req.status = Status.pending
    · simp only [approveRequest, hget]
      rw [if_pos hpend]
      simp [Store.get?_set_self]
    · simp only [approveRequest, hget]
      rw [if_neg hpend]
      simp [hget]
  · intro now2
    by_cases hpend : req.status = Status.pending
    · simp only [denyRequest, hget]
      rw [if_pos hpend]
      simp [Store.get?_set_self]
    · simp only [denyRequest, hget]
      rw [if_neg hpend]
      simp [hget]
  · intro net0 i hnet
    simp only [waitStep]
    rw [hnet, key]
    simp [hnext]

/-- Witness for C7 on a pending authority-issued request with stored interval
5 s: the slow_down poll persists interval 10 s and the next loop iteration
sleeps 10000 ms. -/
theorem c7_witness :
    pollCIBAResult 100 (PollNet.failure ErrCode.slowDown) c7store c7id
      = (Status.pending, c7store.set c7id { c7req with interval := some 10 }, true) ∧
    ((pollCIBAResult 100 (PollNet.success false) c7store c7id).2.1.get? c7id).map
      (fun r => r.interval) = some (some 5) ∧
    ((approveRequest c7store c7id 100).2.get? c7id).map (fun r => r.interval)
      = some (some 5) ∧
    waitStep (fun _ => PollNet.failure ErrCode.slowDown) c7id ⟨c7store, 100, 5000, 0⟩
      = (Status.pending, ⟨c7store.set c7id { c7req with interval := some 10 }, 10100, 10000, 1⟩) := by
  have h := c7_slow_down c7store c7id c7req 100 (by decide) (by decide) (by decide)
  refine ⟨?_, ?_, ?_, ?_⟩
  · exact h.1
  · exact (h.2.2.2.1 100 (PollNet.success false) (by decide)).trans (by decide)
  · exact (h.2.2.2.2.1 100).trans (by decide)
  · exact (h.2.2.2.2.2.2 (fun _ => PollNet.failure ErrCode.slowDown) 0 rfl).trans (by decide)

theorem nextIntervalMs_le (store : Store) (authReqId : String) (m : Nat) :
    m ≤ nextIntervalMs store authReqId m := by
  unfold nextIntervalMs
  split
  · split
    · split <;> omega
    · omega
  · omega

theorem waitStep_now_eq (net : Nat → PollNet) (authReqId : String) (s : WaitState) :
    (waitStep net authReqId s).2.now = s.now + (waitStep net authReqId s).2.pollIntervalMs ∧
    s.pollIntervalMs ≤ (waitStep net authReqId s).2.pollIntervalMs := by
  constructor
  · simp [waitStep]
  · simp only [waitStep]
    exact nextIntervalMs_le _ _ _

/-- With fuel exceeding the remaining wall-clock budget, the wait loop always
produces a result. -/
theorem waitLoop_isSome (net : Nat → PollNet) (authReqId : String) (startTime : Nat)
    (maxWaitMs : Int) :
    ∀ (fuel : Nat) (s : WaitState), startTime ≤ s.now → 1 ≤ s.pollIntervalMs →
      maxWaitMs ≤ ((s.now - startTime : Nat) : Int) + (fuel : Int) →
      (waitLoop net authReqId startTime maxWaitMs (fuel + 1) s).isSome = true := by
  intro fuel
  induction fuel with
  | zero =>
    intro s h1 h2 h3
    unfold waitLoop
    rw [if_neg (by omega)]
    rfl
  | succ fuel ih =>
    intro s h1 h2 h3
    unfold waitLoop
    by_cases hguard : ((s.now - startTime : Nat) : Int) < maxWaitMs
    · rw [if_pos hguard]
      by_cases h4 : (waitStep net authReqId s).1 = Status.approved
      · rw [if_pos h4]
        rfl
      · rw [if_neg h4]
        by_cases h5 : (waitStep net authReqId s).1 = Status.denied
        · rw [if_pos h5]
          rfl
        · rw [if_neg h5]
          by_cases h6 : (waitStep net authReqId s).1 = Status.expired
          · rw [if_pos h6]
            rfl
          · rw [if_neg h6]
            have hstep := waitStep_now_eq net authReqId s
            have hrec := ih (waitStep net authReqId s).2 (by omega) (by omega) (by omega)
            obtain ⟨⟨res, sf, polls⟩, heq⟩ := Option.isSome_iff_exists.mp hrec
            rw [heq]
            rfl
    · rw [if_neg hguard]
      rfl

/-- Characterization of the wait loop's outcome in terms of the poll results it
observed: timeout exactly when no poll was terminal (and then the budget was
exhausted), and each terminal outcome is backed by a matching poll result. -/
theorem waitLoop_results (net : Nat → PollNet) (authReqId : String) (startTime : Nat)
    (maxWaitMs : Int) :
    ∀ (fuel : Nat) (s : WaitState) (res : WaitResult) (sf : WaitState) (polls : List Status),
      waitLoop net authReqId startTime maxWaitMs fuel s = some (res, sf, polls) →
      ((res = WaitResult.timeout →
          (∀ p ∈ polls, p ≠ Status.approved ∧ p ≠ Status.denied ∧ p ≠ Status.expired) ∧
          maxWaitMs ≤ ((sf.now - startTime : Nat) : Int)) ∧
        (res = WaitResult.approved → Status.approved ∈ polls) ∧
        (res = WaitResult.denied → Status.denied ∈ polls) ∧
        (res = WaitResult.expired → Status.expired ∈ polls)) := by
  intro fuel
  induction fuel with
  | zero =>
    intro s res sf polls h
    simp [waitLoop] at h
  | succ fuel ih =>
    intro s res sf polls h
    unfold waitLoop at h
    by_cases hguard : ((s.now - startTime : Nat) : Int) < maxWaitMs
    · rw [if_pos hguard] at h
      by_cases h4 : (waitStep net authReqId s).1 = Status.approved
      · rw [if_pos h4] at h
        simp only [Option.some.injEq, Prod.mk.injEq] at h
        obtain ⟨h1, h2, h3⟩ := h
        subst h1
        subst h2
        subst h3
        refine ⟨?_, ?_, ?_, ?_⟩
        · intro ht
          exact absurd ht (by decide)
        · intro _
          simp [h4]
        · intro hd
          exact absurd hd (by decide)
        · intro he
          exact absurd he (by decide)
      · rw [if_neg h4] at h
        by_cases h5 : (waitStep net authReqId s).1 = Status.denied
        · rw [if_pos h5] at h
          simp only [Option.some.injEq, Prod.mk.injEq] at h
          obtain ⟨h1, h2, h3⟩ := h
          subst h1
          subst h2
          subst h3
          refine ⟨?_, ?_, ?_, ?_⟩
          · intro ht
            exact absurd ht (by decide)
          · intro ha
            exact absurd ha (by decide)
          · intro _
            simp [h5]
          · intro he
            exact absurd he (by decide)
        · rw [if_neg h5] at h
          by_cases h6 : (waitStep net authReqId s).1 = Status.expired
          · rw [if_pos h6] at h
            simp only [Option.some.injEq, Prod.mk.injEq] at h
            obtain ⟨h1, h2, h3⟩ := h
            subst h1
            subst h2
            subst h3
            refine ⟨?_, ?_, ?_, ?_⟩
            · intro ht
              exact absurd ht (by decide)
            · intro ha
              exact absurd ha (by decide)
            · intro hd
              exact absurd hd (by decide)
            · intro _
              simp [h6]
          · rw [if_neg h6] at h
            rcases hrec : waitLoop net authReqId startTime maxWaitMs fuel
                (waitStep net authReqId s).2 with _ | t
            · rw [hrec] at h
              simp at h
            · obtain ⟨res2, sf2, polls2⟩ := t
              rw [hrec] at h
              simp only [Option.map, Option.some.injEq, Prod.mk.injEq] at h
              obtain ⟨h1, h2, h3⟩ := h
              subst h1
              subst h2
              subst h3
              have IH := ih (waitStep net authReqId s).2 res2 sf2 polls2 hrec
              refine ⟨?_, ?_, ?_, ?_⟩
              · intro ht
                obtain ⟨hall, hbound⟩ := IH.1 ht
                refine ⟨?_, hbound⟩
                intro p hp
                rcases List.mem_cons.mp hp with hp | hp
                · subst hp
                  exact ⟨h4, h5, h6⟩
                · exact hall p hp
              · intro ha
                exact List.mem_cons_of_mem _ (IH.2.1 ha)
              · intro hd
                exact List.mem_cons_of_mem _ (IH.2.2.1 hd)
              · intro he
                exact List.mem_cons_of_mem _ (IH.2.2.2 he)
    · rw [if_neg hguard] at h
      simp only [Option.some.injEq, Prod.mk.injEq] at h
      obtain ⟨h1, h2, h3⟩ := h
      subst h1
      subst h2
      subst h3
      refine ⟨?_, ?_, ?_, ?_⟩
      · intro _
        refine ⟨?_, by omega⟩
        intro p hp
        simp at hp
      · intro ha
        exact absurd ha (by decide)
      · intro hd
        exact absurd hd (by decide)
      · intro he
        exact absurd he (by decide)

/-- Claim C3: `waitForApproval` always produces one of the four outcomes (never
an exception, never pending), and the outcome is timeout exactly when no poll
of the run yielded approved, denied or expired — in which case the elapsed
wall-clock time reached `maxWaitMs`; in particular expired (the request's own
deadline) is reported only when a poll yielded it, never by budget exhaustion. -/
theorem c3_wait_timeout_distinct (net : Nat → PollNet) (store : Store) (authReqId : String)
    (startTime : Nat) (maxWaitMs : Int) :
    ∃ res sf polls,
      waitForApproval net store authReqId startTime maxWaitMs = some (res, sf, polls) ∧
      (res = WaitResult.timeout ↔
        ∀ p ∈ polls, p ≠ Status.approved ∧ p ≠ Status.denied ∧ p ≠ Status.expired) ∧
      (res = WaitResult.timeout → maxWaitMs ≤ ((sf.now - startTime : Nat) : Int)) ∧
      (res = WaitResult.expired → Status.expired ∈ polls) := by
  have hsome : (waitForApproval net store authReqId startTime maxWaitMs).isSome = true := by
    unfold waitForApproval
    refine waitLoop_isSome net authReqId startTime maxWaitMs maxWaitMs.toNat
      ⟨store, startTime, jsOrNat ((store.get? authReqId).bind (fun r => r.interval)) 5 * 1000, 0⟩
      le_rfl ?_ ?_
    · show 1 ≤ jsOrNat ((store.get? authReqId).bind (fun r => r.interval)) 5 * 1000
      have := jsOrNat_pos ((store.get? authReqId).bind (fun r => r.interval))
      omega
    · show maxWaitMs ≤ ((startTime - startTime : Nat) : Int) + (maxWaitMs.toNat : Int)
      omega
  obtain ⟨⟨res, sf, polls⟩, heq⟩ := Option.isSome_iff_exists.mp hsome
  have heq2 : waitLoop net authReqId startTime maxWaitMs (maxWaitMs.toNat + 1)
      ⟨store, startTime, jsOrNat ((store.get? authReqId).bind (fun r => r.interval)) 5 * 1000, 0⟩
      = some (res, sf, polls) := heq
  have H := waitLoop_results net authReqId startTime maxWaitMs (maxWaitMs.toNat + 1)
    ⟨store, startTime, jsOrNat ((store.get? authReqId).bind (fun r => r.interval)) 5 * 1000, 0⟩
    res sf polls heq2
  refine ⟨res, sf, polls, heq, ⟨?_, ?_⟩, ?_, H.2.2.2⟩
  · intro ht
    exact (H.1 ht).1
  · intro hall
    cases hres : res with
    | timeout => rfl
    | approved =>
      have hm := H.2.1 hres
      exact absurd rfl (hall _ hm).1
    | denied =>
      have hm := H.2.2.1 hres
      exact absurd rfl (hall _ hm).2.1
    | expired =>
      have hm := H.2.2.2 hres
      exact absurd rfl (hall _ hm).2.2
  · intro ht
    exact (H.1 ht).2

/-- Witness for C3: the run against an authority that stays pending forever
resolves (to some outcome) rather than erroring. -/
theorem c3_witness : (waitForApproval c3net c3store c3id 0 3000).isSome = true := by
  obtain ⟨res, sf, polls, heq, _, _, _⟩ := c3_wait_timeout_distinct c3net c3store c3id 0 3000
  rw [heq]
  rfl

/-- Claim C10: with a non-positive wait budget, `waitForApproval` returns
timeout immediately, without a single poll and with the store untouched — even
if the stored request is already terminal. -/
theorem c10_nonpositive_wait (net : Nat → PollNet) (store : Store) (authReqId : String)
    (startTime : Nat) (maxWaitMs : Int) (h : maxWaitMs ≤ 0) :
    waitForApproval net store authReqId startTime maxWaitMs
      = some (WaitResult.timeout,
          ⟨store, startTime,
            jsOrNat ((store.get? authReqId).bind (fun r => r.interval)) 5 * 1000, 0⟩, []) := by
  unfold waitForApproval
  rw [Int.toNat_of_nonpos h]
  unfold waitLoop
  rw [if_neg (by omega)]

/-- Witness for C10: an already approved request, an authority that would grant
a token at once, and budget -5 still yield an immediate timeout with no poll. -/
theorem c10_witness :
    waitForApproval c10net c10store c10id 100 (-5)
      = some (WaitResult.timeout, ⟨c10store, 100, 5000, 0⟩, []) :=
  (c10_nonpositive_wait c10net c10store c10id 100 (-5) (by decide)).trans (by decide)

/-- Witness for C4 at clock 42 on the empty store. -/
theorem c4_witness :
    (initiateCIBARequest 42 InitNet.failure "user4" "user4@example.com" sensitiveKind c4details
      Store.empty).1.authReqId = simulatedMark ++ toString 42 ∧
    strStartsWith
      (initiateCIBARequest 42 InitNet.failure "user4" "user4@example.com" sensitiveKind c4details
        Store.empty).1.authReqId simulatedMark = true ∧
    (initiateCIBARequest 42 InitNet.failure "user4" "user4@example.com" sensitiveKind c4details
      Store.empty).1.status = Status.pending ∧
    (initiateCIBARequest 42 InitNet.failure "user4" "user4@example.com" sensitiveKind c4details
      Store.empty).1.expiresAt = 42 + 300000 ∧
    (initiateCIBARequest 42 InitNet.failure "user4" "user4@example.com" sensitiveKind c4details
      Store.empty).2
      = Store.empty.set (simulatedMark ++ toString 42)
          (initiateCIBARequest 42 InitNet.failure "user4" "user4@example.com" sensitiveKind
            c4details Store.empty).1 := by
  have h := c4_fallback_request 42 "user4" "user4@example.com" sensitiveKind c4details Store.empty
  exact ⟨h.1, h.2.1, h.2.2.1, h.2.2.2.2.1, h.2.2.2.2.2.2⟩

/-- Witness for C9: a description full of disallowed characters still yields an
all-allowed message, and the concrete transfer message is rendered as claimed. -/
theorem c9_witness :
    (createBindingMessage payrollKind c9wdetails).toList.all cibaAllowed = true ∧
    createBindingMessage transferKind c9details = "Approve transfer of 50,000 USD to ACC999" ∧
    ((createBindingMessage transferKind c9details).toList.contains '$') = false := by
  have h := c9_binding_message_sanitized payrollKind c9wdetails
  exact ⟨h.1, h.2.1, h.2.2⟩
